import Mathlib

/-!
Verification of the metrics persistence and query subsystem of the
monitoring repository (`monitor.py`, `monitor_cli.py`, `monitor_sqlite.py`).

The Python code is shallowly embedded:

* instants (`datetime` values in UTC) are modelled as seconds since the Unix
  epoch (`Int`; all operations in the programs are at second granularity or
  whole-minute/hour/day offsets, so this is exact for everything stated here);
* `REAL` / `float` values are modelled as exact rationals `ℚ`;
* a SQLite table is modelled as a `List` of rows in insertion (rowid) order;
* SQLite `TEXT` comparison (BINARY collation, i.e. `memcmp` of the UTF-8
  bytes) is modelled by `memCmp` on the character list (for the ASCII strings
  used by the programs, byte order and code-point order agree);
* Python exceptions / `SystemExit` are modelled with `Option` / `Except`.
-/

set_option maxHeartbeats 1600000

namespace Monitor

/-- Three-way comparison on `Nat`, spelled so that case analysis is easy. -/
def natCmp (a b : Nat) : Ordering :=
  if a < b then .lt else if a = b then .eq else .gt

/-- Comparison of two characters by code point; for the ASCII data handled by
the programs this is exactly byte order. -/
def charCmp (a b : Char) : Ordering := natCmp a.toNat b.toNat

/-- Model of `memcmp` on decoded strings: lexicographic comparison of the
character lists, shorter prefix first.  This is SQLite's BINARY collation,
used by the `ts >= ?`, `ts <= ?` and `ts < ?` comparisons in
`monitor_sqlite.py` (all stored strings are ASCII). -/
def memCmp : List Char → List Char → Ordering
  | [], [] => .eq
  | [], _ :: _ => .lt
  | _ :: _, [] => .gt
  | a :: as, b :: bs => (charCmp a b).then (memCmp as bs)

/-- Three-way comparison of strings under BINARY collation. -/
def strCmp (a b : String) : Ordering := memCmp a.data b.data

/-- SQLite `a < b` on TEXT values. -/
def strLt (a b : String) : Bool :=
  match strCmp a b with
  | .lt => true
  | _ => false

/-- SQLite `a <= b` on TEXT values. -/
def strLe (a b : String) : Bool :=
  match strCmp a b with
  | .gt => false
  | _ => true

/-- The decimal digit characters, as written by Python's `strftime`. -/
def digitChar : Nat → Char
  | 0 => '0'
  | 1 => '1'
  | 2 => '2'
  | 3 => '3'
  | 4 => '4'
  | 5 => '5'
  | 6 => '6'
  | 7 => '7'
  | 8 => '8'
  | _ => '9'

/-- Zero-padded fixed-width decimal rendering (most significant digit first),
as produced by `strftime` field directives such as `%Y`, `%m`, `%H`. -/
def padDigits : Nat → Nat → List Char
  | 0, _ => []
  | w + 1, n => digitChar (n / 10 ^ w) :: padDigits w (n % 10 ^ w)

/-- Days from the start of a 400-year Gregorian era to the start of its
year-of-era `t` (March-based years), `365 t` plus the leap days among the
first `t` years. -/
def yearOffset (t : Nat) : Nat := 365 * t + t / 4 - t / 100

/-- 400-year era of the day number (days counted from 1970-01-01, shifted to
the era origin 0000-03-01).  This and the helpers below are the standard
`civil_from_days` computation, which is what `datetime`'s proleptic-Gregorian
conversion computes. -/
def eraOf (z : Nat) : Nat := (z + 719468) / 146097

/-- Day within the 400-year era. -/
def doeOf (z : Nat) : Nat := (z + 719468) % 146097

/-- Year of era (0–399, March-based) containing day-of-era `doe`. -/
def yoeOf (doe : Nat) : Nat :=
  (doe - doe / 1460 + doe / 36524 - doe / 146096) / 365

/-- Day of the (March-based) year. -/
def doyOf (doe : Nat) : Nat := doe - yearOffset (yoeOf doe)

/-- March-based month index (0 = March, …, 11 = February) of a day-of-year. -/
def mpOf (doy : Nat) : Nat := (5 * doy + 2) / 153

/-- Convert a day count since 1970-01-01 to a Gregorian `(year, month, day)`
(proleptic Gregorian calendar, as used by `datetime`). -/
def civilFromDays (z : Nat) : Nat × Nat × Nat :=
  let era := eraOf z
  let doe := doeOf z
  let yoe := yoeOf doe
  let doy := doyOf doe
  let mp := mpOf doy
  let d := doy - (153 * mp + 2) / 5 + 1
  let m := if mp < 10 then mp + 3 else mp - 9
  (yoe + era * 400 + (if mp < 10 then 0 else 1), m, d)

/-- Gregorian leap-year test (as in `calendar.isleap` / `datetime`). -/
def isLeap (y : Nat) : Bool := (y % 4 == 0 && y % 100 != 0) || y % 400 == 0

/-- Length of month `m` of year `y` (as enforced by the `datetime`
constructor, hence by `strptime` and `fromisoformat`). -/
def daysInMonth (y m : Nat) : Nat :=
  if m = 2 then (if isLeap y then 29 else 28)
  else if m = 4 ∨ m = 6 ∨ m = 9 ∨ m = 11 then 30
  else 31

/-- Day count since 1970-01-01 of the Gregorian date `(y, m, d)` (the standard
`days_from_civil` computation; inverse of `civilFromDays` on valid dates). -/
def daysFromCivil (y m d : Nat) : Int :=
  let yy := if m ≤ 2 then y - 1 else y
  let era := yy / 400
  let yoe := yy % 400
  let mp := (m + 9) % 12
  let doy := (153 * mp + 2) / 5 + d - 1
  ((era * 146097 + (yoe * 365 + yoe / 4 - yoe / 100 + doy) : Nat) : Int) - 719468

/-- A UTC wall-clock reading: the six fields `strftime` renders. -/
structure Civil where
  year : Nat
  month : Nat
  day : Nat
  hour : Nat
  minute : Nat
  second : Nat
deriving DecidableEq, Repr

/-- UTC instant (seconds since the epoch) of a wall-clock reading. -/
def toEpoch (c : Civil) : Int :=
  86400 * daysFromCivil c.year c.month c.day +
    3600 * (c.hour : Int) + 60 * (c.minute : Int) + (c.second : Int)

/-- UTC wall-clock fields of a nonnegative epoch second. -/
def fromEpoch (t : Nat) : Civil :=
  let ymd := civilFromDays (t / 86400)
  ⟨ymd.1, ymd.2.1, ymd.2.2, t % 86400 / 3600, t % 86400 % 3600 / 60, t % 86400 % 60⟩

/-- Lexicographic comparison of wall-clock readings, most significant
field first. -/
def civilCmp (c1 c2 : Civil) : Ordering :=
  (natCmp c1.year c2.year).then
    ((natCmp c1.month c2.month).then
      ((natCmp c1.day c2.day).then
        ((natCmp c1.hour c2.hour).then
          ((natCmp c1.minute c2.minute).then (natCmp c1.second c2.second)))))

/-- Character list of `t.strftime("%Y-%m-%dT%H:%M:%SZ")` for the wall-clock
fields `c` (each numeric directive zero-padded to its fixed width). -/
def isoChars (c : Civil) : List Char :=
  padDigits 4 c.year ++
    '-' :: (padDigits 2 c.month ++
      '-' :: (padDigits 2 c.day ++
        'T' :: (padDigits 2 c.hour ++
          ':' :: (padDigits 2 c.minute ++
            ':' :: (padDigits 2 c.second ++ ['Z'])))))

/-- Model of `isoformat_utc` in `monitor_sqlite.py`: normalise to UTC (a
no-op in this embedding, where instants are UTC epoch seconds) and render
with `ISO_FMT = "%Y-%m-%dT%H:%M:%SZ"`.  The programs only ever format
instants at or after the epoch. -/
def isoformat_utc (t : Int) : String := String.mk (isoChars (fromEpoch t.toNat))

/-- Last epoch second renderable with a four-digit year
(`9999-12-31T23:59:59Z`). -/
def maxSecond : Nat := 253402300799

/-- Whether a character is a decimal digit. -/
def isDigit (c : Char) : Bool := 48 ≤ c.toNat && c.toNat ≤ 57

/-- Whether every character of the list is a decimal digit. -/
def allDigits (cs : List Char) : Bool := cs.all isDigit

/-- Numeric value of a digit string, most significant digit first. -/
def digitsVal (cs : List Char) : Nat :=
  cs.foldl (fun a c => 10 * a + (c.toNat - 48)) 0

/-- Model of Python's `int()` on the inputs the programs can feed it: an
optional sign followed by one or more digits (surrounding whitespace and
digit-group underscores, which `int()` also tolerates, are not modelled). -/
def pyInt (cs : List Char) : Option Int :=
  if cs.head? = some '-' then
    (if cs.drop 1 ≠ [] ∧ allDigits (cs.drop 1) then
      some (-(digitsVal (cs.drop 1) : Int)) else none)
  else if cs.head? = some '+' then
    (if cs.drop 1 ≠ [] ∧ allDigits (cs.drop 1) then
      some (digitsVal (cs.drop 1)) else none)
  else if cs ≠ [] ∧ allDigits cs then some (digitsVal cs) else none

/-- Model of Python's `float()` on plain decimal literals (an optional sign,
digits, optionally a dot and more digits); `inf`/`nan`/exponent forms, which
never occur in well-formed stored rows, are not modelled. -/
def pyFloat (cs : List Char) : Option ℚ :=
  match cs with
  | '-' :: rest => (pyFloatMag rest).map (fun q => -q)
  | '+' :: rest => pyFloatMag rest
  | _ => pyFloatMag cs
where
  /-- Unsigned part of a decimal literal: `dd`, `dd.`, `.dd` or `dd.dd`. -/
  pyFloatMag (cs : List Char) : Option ℚ :=
    let ip := cs.takeWhile (fun c => c ≠ '.')
    match cs.drop ip.length with
    | [] => if ip ≠ [] ∧ allDigits ip then some (digitsVal ip) else none
    | '.' :: fp =>
        if (ip ≠ [] ∨ fp ≠ []) ∧ allDigits ip ∧ allDigits fp then
          some ((digitsVal ip : ℚ) + (digitsVal fp : ℚ) / ((10 ^ fp.length : Nat) : ℚ))
        else none
    | _ => none

/-- Model of `datetime.strptime(s, "%Y-%m-%dT%H:%M:%S")` as used by
`monitor_cli.py` on rows its own writer produced (all fields zero-padded to
fixed width, which is what `strftime` writes); the resulting naive `datetime`
carries exactly these six validated fields. -/
def strptimeIsoT (cs : List Char) : Option Civil :=
  match cs with
  | [y1, y2, y3, y4, s1, mo1, mo2, s2, d1, d2, s3, h1, h2, s4, mi1, mi2, s5, se1, se2] =>
      if s1 = '-' ∧ s2 = '-' ∧ s3 = 'T' ∧ s4 = ':' ∧ s5 = ':' ∧
          allDigits [y1, y2, y3, y4, mo1, mo2, d1, d2, h1, h2, mi1, mi2, se1, se2] then
        let y := digitsVal [y1, y2, y3, y4]
        let mo := digitsVal [mo1, mo2]
        let d := digitsVal [d1, d2]
        let h := digitsVal [h1, h2]
        let mi := digitsVal [mi1, mi2]
        let se := digitsVal [se1, se2]
        if 1 ≤ y ∧ 1 ≤ mo ∧ mo ≤ 12 ∧ 1 ≤ d ∧ d ≤ daysInMonth y mo ∧
            h ≤ 23 ∧ mi ≤ 59 ∧ se ≤ 59 then
          some ⟨y, mo, d, h, mi, se⟩
        else none
      else none
  | _ => none

/-- The ten-character date part `YYYY-MM-DD` accepted by
`datetime.fromisoformat`. -/
def parseIsoDate (cs : List Char) : Option (Nat × Nat × Nat) :=
  match cs with
  | [y1, y2, y3, y4, s1, mo1, mo2, s2, d1, d2] =>
      if s1 = '-' ∧ s2 = '-' ∧ allDigits [y1, y2, y3, y4, mo1, mo2, d1, d2] then
        let y := digitsVal [y1, y2, y3, y4]
        let mo := digitsVal [mo1, mo2]
        let d := digitsVal [d1, d2]
        if 1 ≤ y ∧ 1 ≤ mo ∧ mo ≤ 12 ∧ 1 ≤ d ∧ d ≤ daysInMonth y mo then
          some (y, mo, d)
        else none
      else none
  | _ => none

/-- The `HH:MM:SS` time part, with an optional `±HH:MM` fixed offset, as
accepted by `datetime.fromisoformat`.  Returns the time fields and the offset
in seconds (`none` for a naive value). -/
def parseIsoTime (cs : List Char) : Option ((Nat × Nat × Nat) × Option Int) :=
  match cs with
  | [h1, h2, c1, mi1, mi2, c2, s1, s2] =>
      if c1 = ':' ∧ c2 = ':' ∧ allDigits [h1, h2, mi1, mi2, s1, s2] then
        let h := digitsVal [h1, h2]
        let mi := digitsVal [mi1, mi2]
        let se := digitsVal [s1, s2]
        if h ≤ 23 ∧ mi ≤ 59 ∧ se ≤ 59 then some ((h, mi, se), none) else none
      else none
  | [h1, h2, c1, mi1, mi2, c2, s1, s2, sg, o1, o2, c3, o3, o4] =>
      if c1 = ':' ∧ c2 = ':' ∧ c3 = ':' ∧ (sg = '+' ∨ sg = '-') ∧
          allDigits [h1, h2, mi1, mi2, s1, s2, o1, o2, o3, o4] then
        let h := digitsVal [h1, h2]
        let mi := digitsVal [mi1, mi2]
        let se := digitsVal [s1, s2]
        let oh := digitsVal [o1, o2]
        let om := digitsVal [o3, o4]
        if h ≤ 23 ∧ mi ≤ 59 ∧ se ≤ 59 ∧ oh ≤ 23 ∧ om ≤ 59 then
          some ((h, mi, se),
            some (if sg = '+' then (3600 * oh + 60 * om : Int)
                  else -(3600 * oh + 60 * om : Int)))
        else none
      else none
  | _ => none

/-- Model of `datetime.fromisoformat` on the sublanguage the programs can
meet: `YYYY-MM-DD`, optionally followed by a one-character separator and
`HH:MM:SS`, optionally followed by a `±HH:MM` offset.  Returns the wall-clock
fields and the offset (`none` when the input is naive). -/
def pyFromIso (cs : List Char) : Option (Civil × Option Int) :=
  match parseIsoDate (cs.take 10) with
  | none => none
  | some (y, mo, d) =>
      match cs.drop 10 with
      | [] => some (⟨y, mo, d, 0, 0, 0⟩, none)
      | _ :: timePart =>
          match parseIsoTime timePart with
          | none => none
          | some ((h, mi, se), off) => some (⟨y, mo, d, h, mi, se⟩, off)

/-- Model of `parse_relative_time` in `monitor_sqlite.py`, on the decoded
character list.  `now` is the injected clock (`utcnow()`).  A `-<digits><u>`
form with `u ∈ "hdm"` resolves relative to `now`; anything else goes to
`datetime.fromisoformat(s).replace(tzinfo=dt.timezone.utc)`, i.e. the parsed
wall-clock fields are reinterpreted as UTC and any parsed offset is dropped.
`none` models the exception path (`ValueError` from `int()` or
`fromisoformat`). -/
def parseRelChars (now : Int) (cs : List Char) : Option Int :=
  if cs.head? = some '-' ∧
      (cs.getLast? = some 'h' ∨ cs.getLast? = some 'd' ∨ cs.getLast? = some 'm') then
    match pyInt (cs.drop 1).dropLast with
    | none => none
    | some n =>
        if cs.getLast? = some 'h' then some (now - 3600 * n)
        else if cs.getLast? = some 'd' then some (now - 86400 * n)
        else some (now - 60 * n)
  else
    (pyFromIso cs).map (fun p => toEpoch p.1)

/-- String-level wrapper for `parse_relative_time`. -/
def parse_relative_time (now : Int) (s : String) : Option Int :=
  parseRelChars now s.data

/-! ### The SQLite-backed variant (`monitor_sqlite.py`) -/

/-- One row of the `sample` table (the surrogate `id` is the list position). -/
structure SRow where
  ts : String
  host : String
  ip : String
  metric : String
  value : ℚ
deriving DecidableEq, Repr

/-- The keys of the `KNOWN_METRICS` dict (same keys, in the same order, in
both `monitor_cli.py` and `monitor_sqlite.py`); the dict values are `psutil`
readers, modelled as an opaque `readings` function where needed. -/
def KNOWN_METRICS : List String := ["cpu-usage", "memory-usage", "disk-0-usage"]

/-- Model of `cmd_measure` in `monitor_sqlite.py`: one timestamp (taken
before the loop) is shared by every insert; the loop looks each requested
metric up in turn — an unknown name produces an `Unknown metric` report and
`continue`, a known name appends one row.  Returns the table after the loop
and the reported messages, in loop order. -/
def cmd_measure (store : List SRow) (host ip : String) (now : Int)
    (metrics : List String) (readings : String → ℚ) : List SRow × List String :=
  match metrics with
  | [] => (store, [])
  | metric :: rest =>
      if metric ∈ KNOWN_METRICS then
        cmd_measure (store ++ [⟨isoformat_utc now, host, ip, metric, readings metric⟩])
          host ip now rest readings
      else
        let res := cmd_measure store host ip now rest readings
        (res.1, ("Unknown metric: " ++ metric) :: res.2)

/-- The `WHERE` clause built by `cmd_show` in `monitor_sqlite.py`: optional
exact metric match, optional `ts >= ?` and `ts <= ?` bounds (BINARY text
comparison; the bound strings are already resolved). -/
def sqlMatches (metric : Option String) (startB endB : Option String) (r : SRow) : Bool :=
  (match metric with
   | none => true
   | some m => r.metric = m) &&
  (match startB with
   | none => true
   | some a => strLe a r.ts) &&
  (match endB with
   | none => true
   | some b => strLe r.ts b)

/-- Ordering relation of `ORDER BY ts DESC` (non-strict, so ties are
permitted in any order). -/
def tsDescRel (r1 r2 : SRow) : Prop := strLe r2.ts r1.ts = true

instance : DecidableRel tsDescRel := fun a b => by
  unfold tsDescRel; infer_instance

/-- One result order satisfying `ORDER BY ts DESC` (SQLite does not fix the
order of ties; any theorem below about `sqlOrder` only uses that the result
is a `ts`-descending permutation of its input). -/
def sqlOrder (rows : List SRow) : List SRow := List.insertionSort tsDescRel rows

/-- The `LIMIT ?` clause: a negative limit means no cap in SQLite. -/
def applyLimit (limit : Option Int) (rows : List SRow) : List SRow :=
  match limit with
  | none => rows
  | some n => if n < 0 then rows else rows.take n.toNat

/-- Result set of the query `cmd_show` issues, for already-resolved bound
strings: filter, order by `ts` descending, then apply the limit. -/
def queryRows (store : List SRow) (metric startB endB : Option String)
    (limit : Option Int) : List SRow :=
  applyLimit limit (sqlOrder (store.filter (sqlMatches metric startB endB)))

/-- Python truthiness on an optional string argument: `None` and `""` are
falsy, so `if args.start:` skips both. -/
def truthyStr : Option String → Option String
  | none => none
  | some s => if s = "" then none else some s

/-- Python truthiness on the optional `--limit` integer: `None` and `0` are
falsy, so `if args.limit:` adds no `LIMIT` clause for either. -/
def truthyInt : Option Int → Option Int
  | none => none
  | some n => if n = 0 then none else some n

/-- The `--average` output of `cmd_show` (`monitor_sqlite.py`): only printed
when the flag is set and at least one row came back; the arithmetic mean of
the returned values otherwise. -/
def showAverage (rows : List SRow) (average : Bool) : Option ℚ :=
  if average && !rows.isEmpty then
    some ((rows.map (fun r => r.value)).sum / rows.length)
  else none

/-- Resolution of one `--start`/`--end` argument in `cmd_show`: a falsy
argument adds no clause; otherwise the text runs through
`parse_relative_time` and `isoformat_utc` and becomes a bound parameter.
`none` models the uncaught exception aborting the command. -/
def resolveTimeArg (now : Int) (arg : Option String) : Option (Option String) :=
  match truthyStr arg with
  | none => some none
  | some s =>
      match parse_relative_time now s with
      | none => none
      | some t => some (some (isoformat_utc t))

/-- Model of `cmd_show` in `monitor_sqlite.py`: resolve the time arguments,
query, and compute the optional average over the returned rows. -/
def cmd_show (store : List SRow) (metric startA endA : Option String)
    (limit : Option Int) (average : Bool) (now : Int) :
    Option (List SRow × Option ℚ) :=
  match resolveTimeArg now startA, resolveTimeArg now endA with
  | some sB, some eB =>
      let rows := queryRows store (truthyStr metric) sB eB (truthyInt limit)
      some (rows, showAverage rows average)
  | _, _ => none

/-- Model of `cmd_export` in `monitor_sqlite.py`: the written header row, and
one record per stored row of `SELECT ts, host, ip, metric, value FROM sample`
(no `ORDER BY`: SQLite scans the table in rowid, i.e. insertion, order).  The
numeric cell is written by `csv.writer` via Python's default `str()` of the
float; the exact value it renders is kept as the rational here. -/
def cmd_export (store : List SRow) :
    List String × List (String × String × String × String × ℚ) :=
  (["timestamp", "host", "ip", "metric", "value"],
   store.map (fun r => (r.ts, r.host, r.ip, r.metric, r.value)))

/-- Model of `DELETE FROM sample WHERE ts < ?` with the cursor's `rowcount`:
the surviving table and the number of deleted rows. -/
def deleteBefore (store : List SRow) (cutoff : String) : List SRow × Nat :=
  (store.filter (fun r => !strLt r.ts cutoff),
   (store.filter (fun r => strLt r.ts cutoff)).length)

/-- Model of `cmd_prune` in `monitor_sqlite.py`: the cutoff is
`utcnow() - timedelta(days=retention_days)` rendered by `isoformat_utc`, and
the delete runs with that cutoff. -/
def cmd_prune (store : List SRow) (now : Int) (retentionDays : Int) :
    List SRow × Nat :=
  deleteBefore store (isoformat_utc (now - 86400 * retentionDays))

/-! ### The CSV-backed variant (`monitor_cli.py`) -/

/-- The `Sample` dataclass of `monitor_cli.py`: a naive `datetime` (modelled
as an instant), a metric name and a reading. -/
structure CSample where
  timestamp : Int
  metric : String
  value : ℚ
deriving DecidableEq, Repr

/-- Parsing of one CSV data row in `read_samples` (`monitor_cli.py`): the
`timestamp` field through `strptime`, the `value` field through `float()`;
any failure (wrong arity, bad timestamp, bad number) is the exception path,
`none`. -/
def parseCsvRow (row : List String) : Option CSample :=
  match row with
  | [tsStr, metric, valStr] =>
      match strptimeIsoT tsStr.data, pyFloat valStr.data with
      | some c, some v => some ⟨toEpoch c, metric, v⟩
      | _, _ => none
  | _ => none

/-- Model of the `read_samples` loop in `monitor_cli.py`: each data row is
parsed inside `try`; on any exception the row is skipped (`continue`) and the
loop goes on with the next row. -/
def read_samples : List (List String) → List CSample
  | [] => []
  | row :: rest =>
      match parseCsvRow row with
      | some s => s :: read_samples rest
      | none => read_samples rest

/-- Model of `filter_samples` in `monitor_cli.py`.  `metric` is compared only
when truthy (`None` and `""` both skip the check); the bounds are compared
with `datetime` order (always-truthy when present). -/
def filter_samples (items : List CSample) (metric : Option String)
    (start fin : Option Int) : List CSample :=
  items.filter (fun s =>
    (match metric with
     | none => true
     | some m => if m = "" then true else s.metric = m) &&
    (match start with
     | none => true
     | some a => decide (a ≤ s.timestamp)) &&
    (match fin with
     | none => true
     | some b => decide (s.timestamp ≤ b)))

/-- Model of `cmd_measure` in `monitor_cli.py` (the `--reset` branch and
verbose printing aside): if any requested metric is unknown the command
raises `SystemExit` listing them, before anything is measured or written;
otherwise one sample per metric, all with the one timestamp `now`, is
appended to the file. -/
def cli_cmd_measure (store : List CSample) (now : Int) (metrics : List String)
    (readings : String → ℚ) : Except String (List CSample) :=
  let unknown := metrics.filter (fun m => m ∉ KNOWN_METRICS)
  if unknown ≠ [] then
    .error ("Unknown: " ++ String.intercalate ", " unknown ++
      ". Known: " ++ String.intercalate ", " KNOWN_METRICS)
  else
    .ok (store ++ metrics.map (fun m => ⟨now, m, readings m⟩))

/-- Sum of the values of a sample list (`sum(s.value for s in data)`). -/
def sumVals (l : List CSample) : ℚ := (l.map (fun s => s.value)).sum

/-- Model of `cmd_show` in `monitor_cli.py`: the filtered rows (in file
order), and the optional `--average` and `--total` outputs, each printed only
when its flag is set and the filtered data is non-empty. -/
def cli_show (items : List CSample) (metric : Option String)
    (start fin : Option Int) (average total : Bool) :
    List CSample × Option ℚ × Option ℚ :=
  let data := filter_samples items metric start fin
  (data,
   if average && !data.isEmpty then some (sumVals data / data.length) else none,
   if total && !data.isEmpty then some (sumVals data) else none)

/-! ### Lemmas: three-way comparisons -/

theorem natCmp_refl (a : Nat) : natCmp a a = .eq := by
  unfold natCmp; simp

theorem natCmp_eq_iff {a b : Nat} : natCmp a b = .eq ↔ a = b := by
  unfold natCmp
  rcases Nat.lt_trichotomy a b with h | h | h
  · have h2 : a ≠ b := by omega
    simp [h, h2]
  · subst h; simp
  · have h1 : ¬ a < b := by omega
    have h2 : a ≠ b := by omega
    simp [h1, h2]

theorem natCmp_lt_iff {a b : Nat} : natCmp a b = .lt ↔ a < b := by
  unfold natCmp
  rcases Nat.lt_trichotomy a b with h | h | h
  · simp [h]
  · subst h; simp
  · have h1 : ¬ a < b := by omega
    have h2 : a ≠ b := by omega
    simp [h1, h2]

theorem natCmp_gt_iff {a b : Nat} : natCmp a b = .gt ↔ b < a := by
  unfold natCmp
  rcases Nat.lt_trichotomy a b with h | h | h
  · have h2 : ¬ b < a := by omega
    simp [h, h2]
  · subst h; simp
  · have h1 : ¬ a < b := by omega
    have h2 : a ≠ b := by omega
    simp [h1, h2, h]

theorem natCmp_swap (a b : Nat) : (natCmp a b).swap = natCmp b a := by
  unfold natCmp
  rcases Nat.lt_trichotomy a b with h | h | h
  · have h1 : ¬ b < a := by omega
    have h2 : b ≠ a := by omega
    simp [h, h1, h2, Ordering.swap]
  · subst h; simp [Ordering.swap]
  · have h1 : ¬ a < b := by omega
    have h2 : a ≠ b := by omega
    simp [h, h1, h2, Ordering.swap]

theorem then_swap (a b : Ordering) : (a.then b).swap = a.swap.then b.swap := by
  cases a <;> rfl

theorem charCmp_refl (a : Char) : charCmp a a = .eq := natCmp_refl _

theorem charCmp_eq_iff {a b : Char} : charCmp a b = .eq ↔ a = b := by
  unfold charCmp
  rw [natCmp_eq_iff]
  exact ⟨fun h => Char.eq_of_val_eq (UInt32.toNat.inj h), fun h => by rw [h]⟩

theorem charCmp_lt_iff {a b : Char} : charCmp a b = .lt ↔ a.toNat < b.toNat :=
  natCmp_lt_iff

theorem charCmp_swap (a b : Char) : (charCmp a b).swap = charCmp b a :=
  natCmp_swap _ _

theorem memCmp_refl (l : List Char) : memCmp l l = .eq := by
  induction l with
  | nil => rfl
  | cons x xs ih => simp [memCmp, charCmp_refl, ih, Ordering.then]

theorem memCmp_eq_iff : ∀ {a b : List Char}, memCmp a b = .eq ↔ a = b
  | [], [] => by simp [memCmp]
  | [], _ :: _ => by simp [memCmp]
  | _ :: _, [] => by simp [memCmp]
  | x :: xs, y :: ys => by
    simp only [memCmp]
    cases h : charCmp x y with
    | eq =>
        have hxy : x = y := charCmp_eq_iff.mp h
        subst hxy
        simpa [Ordering.then] using @memCmp_eq_iff xs ys
    | lt =>
        have : x ≠ y := fun hc => by simp [hc, charCmp_refl] at h
        simp [Ordering.then, this]
    | gt =>
        have : x ≠ y := fun hc => by simp [hc, charCmp_refl] at h
        simp [Ordering.then, this]

theorem memCmp_swap : ∀ (a b : List Char), (memCmp a b).swap = memCmp b a
  | [], [] => rfl
  | [], _ :: _ => rfl
  | _ :: _, [] => rfl
  | x :: xs, y :: ys => by
    simp only [memCmp, then_swap, charCmp_swap, memCmp_swap xs ys]

theorem memCmp_lt_trans : ∀ {a b c : List Char},
    memCmp a b = .lt → memCmp b c = .lt → memCmp a c = .lt
  | [], [], _, h1, _ => by simp [memCmp] at h1
  | [], _ :: _, [], _, h2 => by simp [memCmp] at h2
  | [], _ :: _, _ :: _, _, _ => rfl
  | _ :: _, [], _, h1, _ => by simp [memCmp] at h1
  | _ :: _, _ :: _, [], _, h2 => by simp [memCmp] at h2
  | x :: xs, y :: ys, z :: zs, h1, h2 => by
    simp only [memCmp] at h1 h2 ⊢
    cases hxy : charCmp x y with
    | gt => simp [hxy, Ordering.then] at h1
    | lt =>
        cases hyz : charCmp y z with
        | gt => simp [hyz, Ordering.then] at h2
        | lt =>
            have : charCmp x z = .lt :=
              charCmp_lt_iff.mpr
                (lt_trans (charCmp_lt_iff.mp hxy) (charCmp_lt_iff.mp hyz))
            simp [this, Ordering.then]
        | eq =>
            have hyz' : y = z := charCmp_eq_iff.mp hyz
            subst hyz'
            simp [hxy, Ordering.then]
    | eq =>
        have hxy' : x = y := charCmp_eq_iff.mp hxy
        subst hxy'
        rw [charCmp_refl] at h1
        simp only [Ordering.then] at h1
        cases hyz : charCmp x z with
        | lt => simp [hyz, Ordering.then]
        | gt => rw [hyz] at h2; simp [Ordering.then] at h2
        | eq =>
            have hyz' : x = z := charCmp_eq_iff.mp hyz
            subst hyz'
            rw [hyz] at h2
            simp only [Ordering.then] at h2 ⊢
            exact memCmp_lt_trans h1 h2

theorem memCmp_cons_same (x : Char) (r1 r2 : List Char) :
    memCmp (x :: r1) (x :: r2) = memCmp r1 r2 := by
  simp [memCmp, charCmp_refl, Ordering.then]

theorem memCmp_append_of_length_eq : ∀ {a b c d : List Char},
    a.length = b.length →
    memCmp (a ++ c) (b ++ d) = (memCmp a b).then (memCmp c d)
  | [], [], c, d, _ => by simp [memCmp, Ordering.then]
  | [], _ :: _, _, _, h => by simp at h
  | _ :: _, [], _, _, h => by simp at h
  | x :: xs, y :: ys, c, d, h => by
    simp only [List.length_cons, Nat.succ.injEq] at h
    simp only [List.cons_append, memCmp, List.append_eq]
    rw [memCmp_append_of_length_eq h]
    cases charCmp x y <;> simp [Ordering.then]

/-! ### Lemmas: the string order used for `ts` comparisons -/

theorem strLe_refl (a : String) : strLe a a = true := by
  unfold strLe strCmp
  rw [memCmp_refl]

theorem strLe_of_strLt {a b : String} (h : strLt a b = true) : strLe a b = true := by
  unfold strLt strCmp at h
  unfold strLe strCmp
  cases hc : memCmp a.data b.data <;> simp_all

theorem strLt_asymm {a b : String} (h1 : strLt a b = true) (h2 : strLe b a = true) : False := by
  unfold strLt strCmp at h1
  unfold strLe strCmp at h2
  cases hc : memCmp a.data b.data <;> rw [hc] at h1 <;> simp_all
  have := memCmp_swap a.data b.data
  rw [hc] at this
  simp [Ordering.swap] at this
  rw [← this] at h2
  simp at h2

theorem strLe_trans {a b c : String} (h1 : strLe a b = true) (h2 : strLe b c = true) :
    strLe a c = true := by
  unfold strLe strCmp at h1 h2 ⊢
  cases hab : memCmp a.data b.data with
  | gt => simp [hab] at h1
  | eq =>
      have : a.data = b.data := memCmp_eq_iff.mp hab
      rw [this]
      exact h2
  | lt =>
      cases hbc : memCmp b.data c.data with
      | gt => simp [hbc] at h2
      | eq =>
          have : b.data = c.data := memCmp_eq_iff.mp hbc
          rw [← this, hab]
      | lt => rw [memCmp_lt_trans hab hbc]

theorem strLe_total (a b : String) : strLe a b = true ∨ strLe b a = true := by
  unfold strLe strCmp
  cases hab : memCmp a.data b.data with
  | lt => left; rfl
  | eq => left; rfl
  | gt =>
      right
      have := memCmp_swap a.data b.data
      rw [hab] at this
      simp [Ordering.swap] at this
      rw [← this]

theorem strLe_iff_not_strLt {a b : String} : strLe a b = true ↔ ¬ strLt b a = true := by
  unfold strLe strLt strCmp
  have hswap := memCmp_swap a.data b.data
  cases hab : memCmp a.data b.data <;> rw [hab] at hswap <;>
    simp [← hswap, Ordering.swap]

/-! ### Lemmas: fixed-width decimal rendering -/

theorem then_eq_right (o : Ordering) : o.then .eq = o := by
  cases o <;> rfl

theorem padDigits_length (w : Nat) : ∀ n, (padDigits w n).length = w := by
  induction w with
  | zero => intro n; rfl
  | succ w ih => intro n; simp [padDigits, ih]

theorem digitChar_cmp {d1 d2 : Nat} (h1 : d1 < 10) (h2 : d2 < 10) :
    charCmp (digitChar d1) (digitChar d2) = natCmp d1 d2 := by
  interval_cases d1 <;> interval_cases d2 <;> decide

theorem padDigits_cmp : ∀ (w a b : Nat), a < 10 ^ w → b < 10 ^ w →
    memCmp (padDigits w a) (padDigits w b) = natCmp a b := by
  intro w
  induction w with
  | zero =>
      intro a b ha hb
      simp only [pow_zero, Nat.lt_one_iff] at ha hb
      subst ha; subst hb
      simp [padDigits, memCmp, natCmp_refl]
  | succ w ih =>
      intro a b ha hb
      have hP : 0 < 10 ^ w := pow_pos (by norm_num) w
      have hmul : 10 ^ (w + 1) = 10 ^ w * 10 := pow_succ 10 w
      have hda : a / 10 ^ w < 10 :=
        (Nat.div_lt_iff_lt_mul hP).mpr (by rw [mul_comm]; omega)
      have hdb : b / 10 ^ w < 10 :=
        (Nat.div_lt_iff_lt_mul hP).mpr (by rw [mul_comm]; omega)
      simp only [padDigits, memCmp]
      rw [digitChar_cmp hda hdb, ih _ _ (Nat.mod_lt _ hP) (Nat.mod_lt _ hP)]
      have ha' := Nat.div_add_mod a (10 ^ w)
      have hb' := Nat.div_add_mod b (10 ^ w)
      rcases Nat.lt_trichotomy (a / 10 ^ w) (b / 10 ^ w) with hq | hq | hq
      · rw [natCmp_lt_iff.mpr hq, natCmp_lt_iff.mpr (Nat.lt_of_div_lt_div hq)]
        rfl
      · rw [natCmp_eq_iff.mpr hq]
        simp only [Ordering.then]
        rcases Nat.lt_trichotomy (a % 10 ^ w) (b % 10 ^ w) with hr | hr | hr
        · have hab : a < b := by
            rw [← ha', ← hb', hq]
            exact Nat.add_lt_add_left hr _
          rw [natCmp_lt_iff.mpr hr, natCmp_lt_iff.mpr hab]
        · have hab : a = b := by rw [← ha', ← hb', hq, hr]
          rw [hr, hab, natCmp_refl, natCmp_refl]
        · have hab : b < a := by
            rw [← ha', ← hb', hq]
            exact Nat.add_lt_add_left hr _
          rw [natCmp_gt_iff.mpr hr, natCmp_gt_iff.mpr hab]
      · rw [natCmp_gt_iff.mpr hq, natCmp_gt_iff.mpr (Nat.lt_of_div_lt_div hq)]
        rfl

/-! ### Lemmas: Gregorian conversion -/

theorem yearOffset_mono {s t : Nat} (h : s ≤ t) : yearOffset s ≤ yearOffset t := by
  have h4 : s / 4 ≤ t / 4 := Nat.div_le_div_right h
  have h100 : s / 100 ≤ t / 100 := Nat.div_le_div_right h
  unfold yearOffset
  omega

theorem yearOffset_gap (t : Nat) : yearOffset (t + 1) ≤ yearOffset t + 366 := by
  unfold yearOffset
  omega

theorem yearOffset_399 : yearOffset 399 = 145731 := by
  unfold yearOffset
  norm_num

theorem yoe_spec (doe : Nat) (h : doe < 146097) :
    yoeOf doe ≤ 399 ∧ yearOffset (yoeOf doe) ≤ doe ∧
      (yoeOf doe ≤ 398 → doe < yearOffset (yoeOf doe + 1)) := by
  unfold yoeOf yearOffset
  have hle : (doe - doe / 1460 + doe / 36524 - doe / 146096) / 365 ≤ 399 := by omega
  refine ⟨hle, ?_⟩
  set a := (doe - doe / 1460 + doe / 36524 - doe / 146096) / 365 with ha
  clear_value a
  interval_cases a <;> omega

theorem doeOf_lt (z : Nat) : doeOf z < 146097 := Nat.mod_lt _ (by norm_num)

theorem doy_le (doe : Nat) (h : doe < 146097) : doyOf doe ≤ 365 := by
  obtain ⟨h1, h2, h3⟩ := yoe_spec doe h
  unfold doyOf
  by_cases hy : yoeOf doe ≤ 398
  · have h4 := h3 hy
    have h5 := yearOffset_gap (yoeOf doe)
    omega
  · have hy' : yoeOf doe = 399 := by omega
    rw [hy'] at h2 ⊢
    rw [yearOffset_399] at h2 ⊢
    omega

theorem mpOf_le (doy : Nat) (h : doy ≤ 365) : mpOf doy ≤ 11 := by
  unfold mpOf; omega

theorem mpOf_doyLB (doy : Nat) : (153 * mpOf doy + 2) / 5 ≤ doy := by
  unfold mpOf; omega

theorem mpOf_mono {d1 d2 : Nat} (h : d1 ≤ d2) : mpOf d1 ≤ mpOf d2 :=
  Nat.div_le_div_right (by omega)

theorem mpOf_ge10 {doy : Nat} (h : 10 ≤ mpOf doy) : 306 ≤ doy := by
  unfold mpOf at h; omega

theorem yoeOf_mono {doe1 doe2 : Nat} (h1 : doe1 < 146097) (h2 : doe2 < 146097)
    (h : doe1 ≤ doe2) : yoeOf doe1 ≤ yoeOf doe2 := by
  by_contra hcon
  push_neg at hcon
  obtain ⟨ha1, ha2, ha3⟩ := yoe_spec doe1 h1
  obtain ⟨hb1, hb2, hb3⟩ := yoe_spec doe2 h2
  have hb398 : yoeOf doe2 ≤ 398 := by omega
  have hw := hb3 hb398
  have hmono : yearOffset (yoeOf doe2 + 1) ≤ yearOffset (yoeOf doe1) :=
    yearOffset_mono (by omega)
  omega

theorem civilFromDays_y (z : Nat) :
    (civilFromDays z).1 =
      yoeOf (doeOf z) + eraOf z * 400 +
        (if mpOf (doyOf (doeOf z)) < 10 then 0 else 1) := rfl

theorem civilFromDays_m (z : Nat) :
    (civilFromDays z).2.1 =
      (if mpOf (doyOf (doeOf z)) < 10 then mpOf (doyOf (doeOf z)) + 3
       else mpOf (doyOf (doeOf z)) - 9) := rfl

theorem civilFromDays_d (z : Nat) :
    (civilFromDays z).2.2 =
      doyOf (doeOf z) - (153 * mpOf (doyOf (doeOf z)) + 2) / 5 + 1 := rfl

theorem doy_add_offset (doe : Nat) (h : doe < 146097) :
    doyOf doe + yearOffset (yoeOf doe) = doe := by
  obtain ⟨_, h2, _⟩ := yoe_spec doe h
  unfold doyOf
  omega

theorem civilFromDays_lt {z1 z2 : Nat} (h : z1 < z2) :
    (civilFromDays z1).1 < (civilFromDays z2).1 ∨
      ((civilFromDays z1).1 = (civilFromDays z2).1 ∧
        ((civilFromDays z1).2.1 < (civilFromDays z2).2.1 ∨
          ((civilFromDays z1).2.1 = (civilFromDays z2).2.1 ∧
            (civilFromDays z1).2.2 < (civilFromDays z2).2.2))) := by
  simp only [civilFromDays_y, civilFromDays_m, civilFromDays_d]
  have hd1 : doeOf z1 < 146097 := doeOf_lt z1
  have hd2 : doeOf z2 < 146097 := doeOf_lt z2
  have hz1 : 146097 * eraOf z1 + doeOf z1 = z1 + 719468 := Nat.div_add_mod _ _
  have hz2 : 146097 * eraOf z2 + doeOf z2 = z2 + 719468 := Nat.div_add_mod _ _
  obtain ⟨ha1, ha2, _⟩ := yoe_spec (doeOf z1) hd1
  obtain ⟨hb1, hb2, _⟩ := yoe_spec (doeOf z2) hd2
  have hdoyle1 : doyOf (doeOf z1) ≤ 365 := doy_le _ hd1
  have hdoyle2 : doyOf (doeOf z2) ≤ 365 := doy_le _ hd2
  have hmp1 : mpOf (doyOf (doeOf z1)) ≤ 11 := mpOf_le _ hdoyle1
  have hmp2 : mpOf (doyOf (doeOf z2)) ≤ 11 := mpOf_le _ hdoyle2
  have hlb1 : (153 * mpOf (doyOf (doeOf z1)) + 2) / 5 ≤ doyOf (doeOf z1) :=
    mpOf_doyLB _
  have hlb2 : (153 * mpOf (doyOf (doeOf z2)) + 2) / 5 ≤ doyOf (doeOf z2) :=
    mpOf_doyLB _
  have hee : eraOf z1 ≤ eraOf z2 := Nat.div_le_div_right (by omega)
  by_cases heq : eraOf z1 = eraOf z2 ∧ yoeOf (doeOf z1) = yoeOf (doeOf z2)
  · -- same era and year-of-era: compare within the year
    obtain ⟨he, hy⟩ := heq
    have hdd : doeOf z1 < doeOf z2 := by omega
    have hoff : yearOffset (yoeOf (doeOf z1)) = yearOffset (yoeOf (doeOf z2)) := by
      rw [hy]
    have hsum1 := doy_add_offset (doeOf z1) hd1
    have hsum2 := doy_add_offset (doeOf z2) hd2
    have hdoy : doyOf (doeOf z1) < doyOf (doeOf z2) := by omega
    have hmple : mpOf (doyOf (doeOf z1)) ≤ mpOf (doyOf (doeOf z2)) :=
      mpOf_mono (le_of_lt hdoy)
    by_cases hc1 : mpOf (doyOf (doeOf z1)) < 10 <;>
      by_cases hc2 : mpOf (doyOf (doeOf z2)) < 10
    · rw [if_pos hc1, if_pos hc1, if_pos hc2, if_pos hc2]
      omega
    · rw [if_pos hc1, if_pos hc1, if_neg hc2, if_neg hc2]
      omega
    · rw [if_neg hc1, if_neg hc1, if_pos hc2, if_pos hc2]
      omega
    · rw [if_neg hc1, if_neg hc1, if_neg hc2, if_neg hc2]
      omega
  · -- the (era, year-of-era) pair increases strictly
    have hkk : eraOf z1 * 400 + yoeOf (doeOf z1) <
        eraOf z2 * 400 + yoeOf (doeOf z2) := by
      rcases Nat.lt_or_ge (eraOf z1) (eraOf z2) with he | he
      · omega
      · have he' : eraOf z1 = eraOf z2 := by omega
        have hdd : doeOf z1 ≤ doeOf z2 := by omega
        have hyy : yoeOf (doeOf z1) ≤ yoeOf (doeOf z2) := yoeOf_mono hd1 hd2 hdd
        have hne : yoeOf (doeOf z1) ≠ yoeOf (doeOf z2) := fun hc => heq ⟨he', hc⟩
        omega
    by_cases hc1 : mpOf (doyOf (doeOf z1)) < 10 <;>
      by_cases hc2 : mpOf (doyOf (doeOf z2)) < 10
    · rw [if_pos hc1, if_pos hc1, if_pos hc2, if_pos hc2]
      omega
    · rw [if_pos hc1, if_pos hc1, if_neg hc2, if_neg hc2]
      omega
    · rw [if_neg hc1, if_neg hc1, if_pos hc2, if_pos hc2]
      omega
    · rw [if_neg hc1, if_neg hc1, if_neg hc2, if_neg hc2]
      omega

theorem civilFromDays_bounds (z : Nat) (h : z ≤ 2932896) :
    (civilFromDays z).1 ≤ 9999 ∧ 1 ≤ (civilFromDays z).2.1 ∧
      (civilFromDays z).2.1 ≤ 12 ∧ 1 ≤ (civilFromDays z).2.2 ∧
      (civilFromDays z).2.2 ≤ 31 := by
  simp only [civilFromDays_y, civilFromDays_m, civilFromDays_d]
  have hd : doeOf z < 146097 := doeOf_lt z
  have hz : 146097 * eraOf z + doeOf z = z + 719468 := Nat.div_add_mod _ _
  obtain ⟨ha1, ha2, _⟩ := yoe_spec (doeOf z) hd
  have hdoyle : doyOf (doeOf z) ≤ 365 := doy_le _ hd
  have hsum := doy_add_offset (doeOf z) hd
  have hmp : mpOf (doyOf (doeOf z)) ≤ 11 := mpOf_le _ hdoyle
  have hlb : (153 * mpOf (doyOf (doeOf z)) + 2) / 5 ≤ doyOf (doeOf z) := mpOf_doyLB _
  have hdub : doyOf (doeOf z) - (153 * mpOf (doyOf (doeOf z)) + 2) / 5 + 1 ≤ 31 := by
    unfold mpOf at hmp ⊢
    omega
  have hera : eraOf z ≤ 24 := by omega
  have hy9999 : eraOf z = 24 → yoeOf (doeOf z) = 399 → doyOf (doeOf z) ≤ 305 := by
    intro h24 hy
    have hv : yearOffset (yoeOf (doeOf z)) = 145731 := by rw [hy, yearOffset_399]
    omega
  by_cases hb : mpOf (doyOf (doeOf z)) < 10
  · rw [if_pos hb, if_pos hb]
    omega
  · rw [if_neg hb, if_neg hb]
    have h306 : 306 ≤ doyOf (doeOf z) := mpOf_ge10 (by omega)
    omega

/-! ### Lemmas: comparing rendered timestamps -/

theorem civilCmp_refl (c : Civil) : civilCmp c c = .eq := by
  unfold civilCmp
  simp [natCmp_refl, Ordering.then]

theorem civilCmp_swap (c1 c2 : Civil) : (civilCmp c1 c2).swap = civilCmp c2 c1 := by
  unfold civilCmp
  simp only [then_swap, natCmp_swap]

theorem civilCmp_lt_of_lex {c1 c2 : Civil}
    (h : c1.year < c2.year ∨ (c1.year = c2.year ∧
      (c1.month < c2.month ∨ (c1.month = c2.month ∧
        (c1.day < c2.day ∨ (c1.day = c2.day ∧
          (c1.hour < c2.hour ∨ (c1.hour = c2.hour ∧
            (c1.minute < c2.minute ∨ (c1.minute = c2.minute ∧
              c1.second < c2.second)))))))))) :
    civilCmp c1 c2 = .lt := by
  unfold civilCmp
  rcases h with h | ⟨e1, h⟩
  · rw [natCmp_lt_iff.mpr h]
    try rfl
  rw [natCmp_eq_iff.mpr e1]
  simp only [Ordering.then]
  rcases h with h | ⟨e2, h⟩
  · rw [natCmp_lt_iff.mpr h]
    try rfl
  rw [natCmp_eq_iff.mpr e2]
  simp only [Ordering.then]
  rcases h with h | ⟨e3, h⟩
  · rw [natCmp_lt_iff.mpr h]
    try rfl
  rw [natCmp_eq_iff.mpr e3]
  simp only [Ordering.then]
  rcases h with h | ⟨e4, h⟩
  · rw [natCmp_lt_iff.mpr h]
    try rfl
  rw [natCmp_eq_iff.mpr e4]
  simp only [Ordering.then]
  rcases h with h | ⟨e5, h⟩
  · rw [natCmp_lt_iff.mpr h]
    try rfl
  rw [natCmp_eq_iff.mpr e5]
  simp only [Ordering.then]
  exact natCmp_lt_iff.mpr h

theorem fromEpoch_year (t : Nat) : (fromEpoch t).year = (civilFromDays (t / 86400)).1 := rfl

theorem fromEpoch_month (t : Nat) : (fromEpoch t).month = (civilFromDays (t / 86400)).2.1 := rfl

theorem fromEpoch_day (t : Nat) : (fromEpoch t).day = (civilFromDays (t / 86400)).2.2 := rfl

theorem fromEpoch_hour (t : Nat) : (fromEpoch t).hour = t % 86400 / 3600 := rfl

theorem fromEpoch_minute (t : Nat) : (fromEpoch t).minute = t % 86400 % 3600 / 60 := rfl

theorem fromEpoch_second (t : Nat) : (fromEpoch t).second = t % 86400 % 60 := rfl

theorem fromEpoch_cmp_lt {t1 t2 : Nat} (h : t1 < t2) :
    civilCmp (fromEpoch t1) (fromEpoch t2) = .lt := by
  apply civilCmp_lt_of_lex
  simp only [fromEpoch_year, fromEpoch_month, fromEpoch_day, fromEpoch_hour,
    fromEpoch_minute, fromEpoch_second]
  rcases Nat.lt_or_ge (t1 / 86400) (t2 / 86400) with hz | hz
  · rcases civilFromDays_lt hz with hy | ⟨hy, hm | ⟨hm, hd⟩⟩
    · exact Or.inl hy
    · exact Or.inr ⟨hy, Or.inl hm⟩
    · exact Or.inr ⟨hy, Or.inr ⟨hm, Or.inl hd⟩⟩
  · have hzz : t1 / 86400 = t2 / 86400 := by omega
    rw [hzz]
    refine Or.inr ⟨rfl, Or.inr ⟨rfl, Or.inr ⟨rfl, ?_⟩⟩⟩
    have hsod : t1 % 86400 < t2 % 86400 := by omega
    rcases Nat.lt_trichotomy (t1 % 86400 / 3600) (t2 % 86400 / 3600) with hh | hh | hh
    · exact Or.inl hh
    · refine Or.inr ⟨hh, ?_⟩
      rcases Nat.lt_trichotomy (t1 % 86400 % 3600 / 60) (t2 % 86400 % 3600 / 60) with
        hm | hm | hm
      · exact Or.inl hm
      · exact Or.inr ⟨hm, by omega⟩
      · omega
    · omega

theorem civilCmp_fromEpoch (t1 t2 : Nat) :
    civilCmp (fromEpoch t1) (fromEpoch t2) = natCmp t1 t2 := by
  rcases Nat.lt_trichotomy t1 t2 with h | h | h
  · rw [fromEpoch_cmp_lt h, natCmp_lt_iff.mpr h]
  · subst h
    rw [civilCmp_refl, natCmp_refl]
  · have hgt := fromEpoch_cmp_lt h
    have hs : civilCmp (fromEpoch t1) (fromEpoch t2) =
        (civilCmp (fromEpoch t2) (fromEpoch t1)).swap :=
      (civilCmp_swap (fromEpoch t2) (fromEpoch t1)).symm
    rw [hs, hgt, natCmp_gt_iff.mpr h]
    rfl

theorem fromEpoch_bounds (t : Nat) (h : t ≤ maxSecond) :
    (fromEpoch t).year < 10000 ∧ (fromEpoch t).month < 100 ∧
      (fromEpoch t).day < 100 ∧ (fromEpoch t).hour < 100 ∧
      (fromEpoch t).minute < 100 ∧ (fromEpoch t).second < 100 := by
  have hz : t / 86400 ≤ 2932896 := by unfold maxSecond at h; omega
  have hb := civilFromDays_bounds _ hz
  simp only [fromEpoch_year, fromEpoch_month, fromEpoch_day, fromEpoch_hour,
    fromEpoch_minute, fromEpoch_second]
  refine ⟨by omega, by omega, by omega, by omega, by omega, by omega⟩

theorem isoChars_cmp {c1 c2 : Civil}
    (hy1 : c1.year < 10000) (hy2 : c2.year < 10000)
    (hmo1 : c1.month < 100) (hmo2 : c2.month < 100)
    (hd1 : c1.day < 100) (hd2 : c2.day < 100)
    (hh1 : c1.hour < 100) (hh2 : c2.hour < 100)
    (hmi1 : c1.minute < 100) (hmi2 : c2.minute < 100)
    (hs1 : c1.second < 100) (hs2 : c2.second < 100) :
    memCmp (isoChars c1) (isoChars c2) = civilCmp c1 c2 := by
  have e4 : (10 : Nat) ^ 4 = 10000 := by norm_num
  have e2 : (10 : Nat) ^ 2 = 100 := by norm_num
  unfold isoChars
  rw [memCmp_append_of_length_eq (by rw [padDigits_length, padDigits_length])]
  rw [padDigits_cmp 4 _ _ (by rw [e4]; exact hy1) (by rw [e4]; exact hy2)]
  rw [memCmp_cons_same]
  rw [memCmp_append_of_length_eq (by rw [padDigits_length, padDigits_length])]
  rw [padDigits_cmp 2 _ _ (by rw [e2]; exact hmo1) (by rw [e2]; exact hmo2)]
  rw [memCmp_cons_same]
  rw [memCmp_append_of_length_eq (by rw [padDigits_length, padDigits_length])]
  rw [padDigits_cmp 2 _ _ (by rw [e2]; exact hd1) (by rw [e2]; exact hd2)]
  rw [memCmp_cons_same]
  rw [memCmp_append_of_length_eq (by rw [padDigits_length, padDigits_length])]
  rw [padDigits_cmp 2 _ _ (by rw [e2]; exact hh1) (by rw [e2]; exact hh2)]
  rw [memCmp_cons_same]
  rw [memCmp_append_of_length_eq (by rw [padDigits_length, padDigits_length])]
  rw [padDigits_cmp 2 _ _ (by rw [e2]; exact hmi1) (by rw [e2]; exact hmi2)]
  rw [memCmp_cons_same]
  rw [memCmp_append_of_length_eq (by rw [padDigits_length, padDigits_length])]
  rw [padDigits_cmp 2 _ _ (by rw [e2]; exact hs1) (by rw [e2]; exact hs2)]
  rw [memCmp_refl ['Z'], then_eq_right]
  rfl

theorem isoChars_length (c : Civil) : (isoChars c).length = 20 := by
  unfold isoChars
  simp [padDigits_length]

theorem last_of_append_last {l1 l2 : List Char} (h : l2.getLast? = some 'Z') :
    (l1 ++ l2).getLast? = some 'Z' := by
  rw [List.getLast?_append, h]
  rfl

theorem last_of_cons_last {a : Char} {l : List Char} (h : l.getLast? = some 'Z') :
    (a :: l).getLast? = some 'Z' := by
  cases l with
  | nil => simp at h
  | cons b t => rw [List.getLast?_cons_cons]; exact h

theorem isoChars_last (c : Civil) : (isoChars c).getLast? = some 'Z' := by
  unfold isoChars
  apply last_of_append_last
  apply last_of_cons_last
  apply last_of_append_last
  apply last_of_cons_last
  apply last_of_append_last
  apply last_of_cons_last
  apply last_of_append_last
  apply last_of_cons_last
  apply last_of_append_last
  apply last_of_cons_last
  apply last_of_append_last
  rfl

theorem data_mk (l : List Char) : (String.mk l).data = l := rfl

theorem isoformat_utc_eq (t : Int) :
    isoformat_utc t = String.mk (isoChars (fromEpoch t.toNat)) := rfl

theorem isoformat_utc_data (t : Int) :
    (isoformat_utc t).data = isoChars (fromEpoch t.toNat) := by
  rw [isoformat_utc_eq, data_mk]

theorem strLe_eq_true_iff {a b : String} :
    strLe a b = true ↔ memCmp a.data b.data ≠ .gt := by
  unfold strLe strCmp
  cases h : memCmp a.data b.data <;> simp

theorem iso_sortable {t1 t2 : Nat} (h1 : t1 ≤ maxSecond) (h2 : t2 ≤ maxSecond) :
    (strLe (isoformat_utc (t1 : Int)) (isoformat_utc (t2 : Int)) = true ↔ t1 ≤ t2) := by
  obtain ⟨b11, b12, b13, b14, b15, b16⟩ := fromEpoch_bounds t1 h1
  obtain ⟨b21, b22, b23, b24, b25, b26⟩ := fromEpoch_bounds t2 h2
  rw [strLe_eq_true_iff, isoformat_utc_data, isoformat_utc_data,
    Int.toNat_natCast, Int.toNat_natCast,
    isoChars_cmp b11 b21 b12 b22 b13 b23 b14 b24 b15 b25 b16 b26,
    civilCmp_fromEpoch]
  constructor
  · intro hne
    by_contra hlt
    exact hne (natCmp_gt_iff.mpr (by omega))
  · intro hle heq
    have := natCmp_gt_iff.mp heq
    omega

/-! ### Lemmas: the measurement loop -/

theorem cmd_measure_spec (host ip : String) (now : Int) (readings : String → ℚ) :
    ∀ (metrics : List String) (store : List SRow),
      cmd_measure store host ip now metrics readings =
        (store ++ (metrics.filter (fun m => decide (m ∈ KNOWN_METRICS))).map
            (fun m => ⟨isoformat_utc now, host, ip, m, readings m⟩),
         (metrics.filter (fun m => decide (m ∉ KNOWN_METRICS))).map
            (fun m => "Unknown metric: " ++ m)) := by
  intro metrics
  induction metrics with
  | nil => intro store; simp [cmd_measure]
  | cons m ms ih =>
      intro store
      by_cases h : m ∈ KNOWN_METRICS
      · simp only [cmd_measure, if_pos h, ih, List.filter_cons]
        simp [h, List.append_assoc]
      · simp only [cmd_measure, if_neg h, ih, List.filter_cons]
        simp [h]

/-! ### Lemmas: the CSV read loop -/

theorem read_samples_eq_filterMap :
    ∀ rows : List (List String), read_samples rows = rows.filterMap parseCsvRow := by
  intro rows
  induction rows with
  | nil => rfl
  | cons row rest ih =>
      cases h : parseCsvRow row with
      | none => simp [read_samples, h, ih, List.filterMap_cons]
      | some s => simp [read_samples, h, ih, List.filterMap_cons]

theorem read_samples_append (r1 r2 : List (List String)) :
    read_samples (r1 ++ r2) = read_samples r1 ++ read_samples r2 := by
  rw [read_samples_eq_filterMap, read_samples_eq_filterMap, read_samples_eq_filterMap,
    List.filterMap_append]

/-! ### Lemmas: the SQL query model -/

theorem tsDescRel_total : ∀ a b : SRow, tsDescRel a b ∨ tsDescRel b a := by
  intro a b
  unfold tsDescRel
  rcases strLe_total b.ts a.ts with h | h
  · exact Or.inl h
  · exact Or.inr h

theorem tsDescRel_trans : ∀ a b c : SRow, tsDescRel a b → tsDescRel b c → tsDescRel a c := by
  intro a b c hab hbc
  unfold tsDescRel at *
  exact strLe_trans hbc hab

theorem sqlOrder_perm (rows : List SRow) : (sqlOrder rows).Perm rows :=
  List.perm_insertionSort _ _

theorem sqlOrder_sorted (rows : List SRow) : (sqlOrder rows).Sorted tsDescRel := by
  haveI : IsTotal SRow tsDescRel := ⟨tsDescRel_total⟩
  haveI : IsTrans SRow tsDescRel := ⟨tsDescRel_trans⟩
  exact List.sorted_insertionSort _ _

theorem applyLimit_sublist (limit : Option Int) (rows : List SRow) :
    (applyLimit limit rows).Sublist rows := by
  unfold applyLimit
  cases limit with
  | none => exact List.Sublist.refl _
  | some n =>
      show (if n < 0 then rows else rows.take n.toNat).Sublist rows
      by_cases h : n < 0
      · rw [if_pos h]
      · rw [if_neg h]
        exact List.take_sublist _ _

theorem applyLimit_nil (limit : Option Int) : applyLimit limit [] = [] := by
  unfold applyLimit
  cases limit with
  | none => rfl
  | some n =>
      show (if n < 0 then ([] : List SRow) else List.take n.toNat []) = []
      by_cases h : n < 0
      · rw [if_pos h]
      · rw [if_neg h, List.take_nil]

theorem queryRows_sorted (store : List SRow) (metric startB endB : Option String)
    (limit : Option Int) :
    (queryRows store metric startB endB limit).Sorted tsDescRel := by
  unfold queryRows
  exact (sqlOrder_sorted _).sublist (applyLimit_sublist _ _)

theorem queryRows_none_perm (store : List SRow) (metric startB endB : Option String) :
    (queryRows store metric startB endB none).Perm
      (store.filter (sqlMatches metric startB endB)) :=
  sqlOrder_perm _

theorem window_filter_empty (store : List SRow) {a b : String}
    (h : strLt b a = true) :
    store.filter (sqlMatches none (some a) (some b)) = [] := by
  rw [List.filter_eq_nil_iff]
  intro r _ hr
  unfold sqlMatches at hr
  simp only [Bool.and_eq_true] at hr
  obtain ⟨⟨_, h1⟩, h2⟩ := hr
  exact strLt_asymm h (strLe_trans h1 h2)

theorem queryRows_window_empty (store : List SRow) {a b : String}
    (h : strLt b a = true) (limit : Option Int) :
    queryRows store none (some a) (some b) limit = [] := by
  unfold queryRows sqlOrder
  rw [window_filter_empty store h]
  exact applyLimit_nil _

/-! ### Lemmas: Boolean bookkeeping for the string order -/

theorem strLt_of_not_strLe {a b : String} (h : strLe a b = false) : strLt b a = true := by
  unfold strLe strCmp at h
  unfold strLt strCmp
  cases hc : memCmp a.data b.data <;> rw [hc] at h <;> simp_all
  have hsw := memCmp_swap a.data b.data
  rw [hc] at hsw
  simp only [Ordering.swap] at hsw
  rw [← hsw]

theorem strLe_eq_not_strLt (a b : String) : strLe a b = !strLt b a := by
  cases h2 : strLe a b <;> cases h : strLt b a <;> simp_all [strLe_iff_not_strLt]
  exact absurd (strLt_of_not_strLe h2) (by simp [h])

theorem filter_length_split {α : Type} (p : α → Bool) (l : List α) :
    (l.filter p).length + (l.filter (fun r => !p r)).length = l.length := by
  induction l with
  | nil => rfl
  | cons x xs ih =>
      cases h : p x <;> simp [List.filter_cons, h] <;> omega

/-! ### Lemmas: the relative-time parser -/

theorem pyInt_digits (ds : List Char) (h1 : ds ≠ []) (h2 : allDigits ds = true) :
    pyInt ds = some ((digitsVal ds : Nat) : Int) := by
  obtain ⟨c, t, rfl⟩ : ∃ c t, ds = c :: t := by
    cases ds with
    | nil => exact absurd rfl h1
    | cons c t => exact ⟨c, t, rfl⟩
  have hdig : isDigit c = true := by
    simp only [allDigits, List.all_cons, Bool.and_eq_true] at h2
    exact h2.1
  have hcm : ¬ ((c :: t).head? = some '-') := by
    simp only [List.head?, Option.some.injEq]
    intro hEq
    rw [hEq] at hdig
    simp [isDigit] at hdig
  have hcp : ¬ ((c :: t).head? = some '+') := by
    simp only [List.head?, Option.some.injEq]
    intro hEq
    rw [hEq] at hdig
    simp [isDigit] at hdig
  unfold pyInt
  rw [if_neg hcm, if_neg hcp, if_pos ⟨h1, h2⟩]

theorem parseRel_offset (now : Int) (ds : List Char) (u : Char)
    (hu : u = 'h' ∨ u = 'd' ∨ u = 'm') (h1 : ds ≠ []) (h2 : allDigits ds = true) :
    parseRelChars now ('-' :: ds ++ [u]) =
      some (now - (if u = 'h' then 3600 else if u = 'd' then 86400 else 60) *
        (digitsVal ds : Int)) := by
  have hlast : ('-' :: ds ++ [u]).getLast? = some u := List.getLast?_concat _
  have hcond : ('-' :: ds ++ [u]).head? = some '-' ∧
      (('-' :: ds ++ [u]).getLast? = some 'h' ∨
        ('-' :: ds ++ [u]).getLast? = some 'd' ∨
        ('-' :: ds ++ [u]).getLast? = some 'm') := by
    refine ⟨rfl, ?_⟩
    rw [hlast]
    rcases hu with rfl | rfl | rfl
    · exact Or.inl rfl
    · exact Or.inr (Or.inl rfl)
    · exact Or.inr (Or.inr rfl)
  unfold parseRelChars
  rw [if_pos hcond]
  have hdrop : ('-' :: ds ++ [u]).drop 1 = ds ++ [u] := rfl
  rw [hdrop, List.dropLast_concat, pyInt_digits ds h1 h2]
  rw [hlast]
  rcases hu with rfl | rfl | rfl
  · simp
  · simp
  · simp

theorem parseRel_iso (now : Int) (cs : List Char) (h : ¬ cs.head? = some '-') :
    parseRelChars now cs = (pyFromIso cs).map (fun p => toEpoch p.1) := by
  unfold parseRelChars
  rw [if_neg (fun hc => h hc.1)]

theorem filter_samples_window (items : List CSample) (a b : Int) :
    filter_samples items none (some a) (some b) =
      items.filter (fun s => decide (a ≤ s.timestamp) && decide (s.timestamp ≤ b)) := rfl

theorem filter_samples_window_empty (items : List CSample) {a b : Int} (h : b < a) :
    filter_samples items none (some a) (some b) = [] := by
  rw [filter_samples_window, List.filter_eq_nil_iff]
  intro s _
  simp only [Bool.and_eq_true, decide_eq_true_eq, not_and]
  omega

/-! ### The claims -/

/-- C1: for every set of stored samples and every window `[start, end]` given
with both bounds, querying returns exactly the samples whose timestamp
satisfies `start ≤ timestamp ≤ end` (both bounds inclusive) — as the list of
in-window samples in the CSV variant (`filter_samples`), and as a reordering
(permutation) of exactly the in-window rows in the SQLite variant — and for
every window with start strictly after end the result is the empty set, not
an error. -/
theorem C1_time_window :
    (∀ (items : List CSample) (a b : Int),
      filter_samples items none (some a) (some b) =
        items.filter (fun s => decide (a ≤ s.timestamp) && decide (s.timestamp ≤ b))) ∧
    (∀ (items : List CSample) (a b : Int), b < a →
      filter_samples items none (some a) (some b) = []) ∧
    (∀ (store : List SRow) (a b : String),
      (queryRows store none (some a) (some b) none).Perm
        (store.filter (fun r => strLe a r.ts && strLe r.ts b))) ∧
    (∀ (store : List SRow) (a b : String) (limit : Option Int), strLt b a = true →
      queryRows store none (some a) (some b) limit = []) := by
  refine ⟨filter_samples_window, fun items a b h => filter_samples_window_empty items h,
    fun store a b => ?_, fun store a b limit h => queryRows_window_empty store h limit⟩
  exact queryRows_none_perm store none (some a) (some b)

/-- C1 witness: on a one-sample store, the inverted windows return empty in
both variants, and a proper window keeps the sample. -/
theorem C1_time_window_witness :
    filter_samples [⟨5, "cpu-usage", 1⟩] none (some 10) (some 3) = [] ∧
    queryRows [⟨"2025-09-27T15:00:00Z", "h", "1.2.3.4", "cpu-usage", 1⟩] none
      (some "2025-09-27T16:00:00Z") (some "2025-09-27T14:00:00Z") none = [] := by
  refine ⟨C1_time_window.2.1 _ 10 3 (by norm_num), ?_⟩
  exact C1_time_window.2.2.2 _ "2025-09-27T16:00:00Z" "2025-09-27T14:00:00Z" none (by decide)

/-- C2: for every store state and cutoff, the prune deletes exactly the rows
with timestamp strictly before the cutoff (every row with timestamp at or
after the cutoff survives unchanged), reports the number of deleted rows (the
survivors and the count add back up to the whole store), a second identical
prune deletes zero rows, and `cmd_prune` is exactly this delete at the cutoff
`now - retention_days` days rendered by `isoformat_utc`. -/
theorem C2_prune (store : List SRow) (cutoff : String) :
    (deleteBefore store cutoff).1 = store.filter (fun r => strLe cutoff r.ts) ∧
    (deleteBefore store cutoff).2 =
      (store.filter (fun r => strLt r.ts cutoff)).length ∧
    (deleteBefore store cutoff).1.length + (deleteBefore store cutoff).2 =
      store.length ∧
    (deleteBefore (deleteBefore store cutoff).1 cutoff).2 = 0 ∧
    (∀ now retentionDays : Int, cmd_prune store now retentionDays =
      deleteBefore store (isoformat_utc (now - 86400 * retentionDays))) := by
  have hkept : (deleteBefore store cutoff).1 =
      store.filter (fun r => strLe cutoff r.ts) := by
    unfold deleteBefore
    exact List.filter_congr (fun r _ => (strLe_eq_not_strLt cutoff r.ts).symm)
  have hsplit := filter_length_split (fun r => strLt r.ts cutoff) store
  have hrepeat : (deleteBefore (deleteBefore store cutoff).1 cutoff).2 = 0 := by
    show ((store.filter (fun r => !strLt r.ts cutoff)).filter
      (fun r => strLt r.ts cutoff)).length = 0
    rw [List.filter_filter]
    have hnil : store.filter (fun a => strLt a.ts cutoff && !strLt a.ts cutoff) = [] := by
      rw [List.filter_eq_nil_iff]
      intro r _
      cases h : strLt r.ts cutoff <;> simp [h]
    rw [hnil]
    rfl
  refine ⟨hkept, rfl, ?_, hrepeat, fun now rd => rfl⟩
  show (store.filter (fun r => !strLt r.ts cutoff)).length +
    (store.filter (fun r => strLt r.ts cutoff)).length = store.length
  omega

/-- C3: a relative time expression `-<digits><u>` with `u` among `h`, `d`,
`m` resolves to `now` minus that many hours, days, or minutes (`m` is
minutes); with a fixed clock at 2025-09-27T16:00:00Z, `-1h` resolves to
2025-09-27T15:00:00Z and `-2d` to 2025-09-25T16:00:00Z. -/
theorem C3_relative_time :
    (∀ (now : Int) (ds : List Char), ds ≠ [] → allDigits ds = true →
      parse_relative_time now (String.mk ('-' :: ds ++ ['h'])) =
        some (now - 3600 * (digitsVal ds : Int)) ∧
      parse_relative_time now (String.mk ('-' :: ds ++ ['d'])) =
        some (now - 86400 * (digitsVal ds : Int)) ∧
      parse_relative_time now (String.mk ('-' :: ds ++ ['m'])) =
        some (now - 60 * (digitsVal ds : Int))) ∧
    parse_relative_time (toEpoch ⟨2025, 9, 27, 16, 0, 0⟩) "-1h" =
      some (toEpoch ⟨2025, 9, 27, 15, 0, 0⟩) ∧
    parse_relative_time (toEpoch ⟨2025, 9, 27, 16, 0, 0⟩) "-2d" =
      some (toEpoch ⟨2025, 9, 25, 16, 0, 0⟩) ∧
    isoformat_utc (toEpoch ⟨2025, 9, 27, 15, 0, 0⟩) = "2025-09-27T15:00:00Z" ∧
    isoformat_utc (toEpoch ⟨2025, 9, 25, 16, 0, 0⟩) = "2025-09-25T16:00:00Z" := by
  refine ⟨fun now ds h1 h2 => ⟨?_, ?_, ?_⟩, by decide, by decide, by decide, by decide⟩
  · have h := parseRel_offset now ds 'h' (Or.inl rfl) h1 h2
    simpa using h
  · have h := parseRel_offset now ds 'd' (Or.inr (Or.inl rfl)) h1 h2
    simpa using h
  · have h := parseRel_offset now ds 'm' (Or.inr (Or.inr rfl)) h1 h2
    simpa using h

/-- C3 witness: the general offset theorem applied to the digits `42` with
unit `h` gives `now - 42` hours. -/
theorem C3_relative_time_witness :
    parse_relative_time 0 (String.mk ('-' :: ['4', '2'] ++ ['h'])) = some (-151200) := by
  have h := (C3_relative_time.1 0 ['4', '2'] (by decide) (by decide)).1
  rw [h]
  decide

/-- C4 counterexample: the export header written by `cmd_export` names the
third column `ip`, not `address`, so it is not the claimed row
`timestamp,host,address,metric,value`. -/
theorem C4_export_counterexample :
    (cmd_export []).1 = ["timestamp", "host", "ip", "metric", "value"] ∧
    ¬ (cmd_export []).1 = ["timestamp", "host", "address", "metric", "value"] := by
  exact ⟨rfl, by decide⟩

/-- C4 (amended): `cmd_export` writes the header row
`timestamp,host,ip,metric,value` (the surrogate id omitted, the address
column named `ip`), then one record per stored sample in insertion (id)
order, carrying that sample's five fields, and every stored row appears
exactly once — none duplicated or dropped (the numeric cell is written via
Python's default `str` of the float, not at a fixed precision; its exact
value is preserved here). -/
theorem C4_export (store : List SRow) :
    (cmd_export store).1 = ["timestamp", "host", "ip", "metric", "value"] ∧
    (cmd_export store).2 =
      store.map (fun r => (r.ts, r.host, r.ip, r.metric, r.value)) ∧
    (cmd_export store).2.length = store.length ∧
    (∀ i : Nat, (cmd_export store).2[i]? =
      (store[i]?).map (fun r => (r.ts, r.host, r.ip, r.metric, r.value))) := by
  refine ⟨rfl, rfl, by simp [cmd_export], fun i => by simp [cmd_export]⟩

/-- C5 counterexample: in the CSV variant, one unknown metric name aborts the
whole batch with `SystemExit` before anything is measured — the known name
`cpu-usage` in the same batch is not collected. -/
theorem C5_unknown_metric_counterexample :
    cli_cmd_measure [] 0 ["cpu-usage", "bogus"] (fun _ => 1) =
      .error "Unknown: bogus. Known: cpu-usage, memory-usage, disk-0-usage" := rfl

/-- C5 (amended): in the SQLite variant, each unknown metric name in a batch
is reported per-name (`Unknown metric: <name>`) and collection and insertion
continue for the remaining known names of the same batch; in the CSV variant
a batch with only known names is appended in full, but any unknown name
aborts the whole batch with an error before any sample is collected. -/
theorem C5_unknown_metric :
    (∀ (store : List SRow) (host ip : String) (now : Int) (metrics : List String)
        (readings : String → ℚ),
      cmd_measure store host ip now metrics readings =
        (store ++ (metrics.filter (fun m => decide (m ∈ KNOWN_METRICS))).map
            (fun m => ⟨isoformat_utc now, host, ip, m, readings m⟩),
         (metrics.filter (fun m => decide (m ∉ KNOWN_METRICS))).map
            (fun m => "Unknown metric: " ++ m))) ∧
    (∀ (store : List CSample) (now : Int) (metrics : List String)
        (readings : String → ℚ),
      (∀ m ∈ metrics, m ∈ KNOWN_METRICS) →
        cli_cmd_measure store now metrics readings =
          .ok (store ++ metrics.map (fun m => ⟨now, m, readings m⟩))) ∧
    (∀ (store : List CSample) (now : Int) (metrics : List String)
        (readings : String → ℚ) (m : String),
      m ∈ metrics → m ∉ KNOWN_METRICS →
        ∃ msg, cli_cmd_measure store now metrics readings = .error msg) := by
  refine ⟨fun store host ip now metrics readings =>
    cmd_measure_spec host ip now readings metrics store, ?_, ?_⟩
  · intro store now metrics readings h
    unfold cli_cmd_measure
    have hnil : metrics.filter (fun m => decide (m ∉ KNOWN_METRICS)) = [] := by
      rw [List.filter_eq_nil_iff]
      intro m hm
      simp [h m hm]
    rw [if_neg (by rw [hnil]; simp)]
  · intro store now metrics readings m hm hnot
    have hmem : m ∈ metrics.filter (fun m => decide (m ∉ KNOWN_METRICS)) :=
      List.mem_filter.mpr ⟨hm, by simp [hnot]⟩
    unfold cli_cmd_measure
    rw [if_pos (List.ne_nil_of_mem hmem)]
    exact ⟨_, rfl⟩

/-- C5 witness: a batch of one known name succeeds in the CSV variant; a
batch containing an unknown name errors there; the SQLite variant inserts the
known name and reports the unknown one from the same batch. -/
theorem C5_unknown_metric_witness :
    cli_cmd_measure [] 0 ["cpu-usage"] (fun _ => 2) = .ok [⟨0, "cpu-usage", 2⟩] ∧
    (∃ msg, cli_cmd_measure [] 0 ["bogus"] (fun _ => 2) = .error msg) ∧
    cmd_measure [] "h" "i" 0 ["cpu-usage", "bogus"] (fun _ => 2) =
      ([⟨isoformat_utc 0, "h", "i", "cpu-usage", 2⟩], ["Unknown metric: bogus"]) := by
  refine ⟨?_, C5_unknown_metric.2.2 [] 0 ["bogus"] (fun _ => 2) "bogus" (by decide)
    (by decide), ?_⟩
  · have h := C5_unknown_metric.2.1 [] 0 ["cpu-usage"] (fun _ => 2) (by decide)
    simpa using h
  · have h := C5_unknown_metric.1 [] "h" "i" 0 ["cpu-usage", "bogus"] (fun _ => 2)
    simpa using h

/-- C6: computing the average or sum aggregate over a filter that matched
zero rows produces no output value at all (`none`, distinguishable from a
computed `0.0`), in both variants; over a non-empty filtered result the
average is the unweighted arithmetic mean of the matching values and the
total is their sum. -/
theorem C6_aggregate :
    (∀ (rows : List SRow) (avgFlag : Bool), rows = [] →
      showAverage rows avgFlag = none) ∧
    (∀ rows : List SRow, rows ≠ [] →
      showAverage rows true =
        some ((rows.map (fun r => r.value)).sum / rows.length)) ∧
    (∀ (items : List CSample) (metric : Option String) (a b : Option Int),
      filter_samples items metric a b = [] →
        (cli_show items metric a b true true).2.1 = none ∧
        (cli_show items metric a b true true).2.2 = none) ∧
    (∀ (items : List CSample) (metric : Option String) (a b : Option Int),
      filter_samples items metric a b ≠ [] →
        (cli_show items metric a b true true).2.1 =
          some (sumVals (filter_samples items metric a b) /
            (filter_samples items metric a b).length) ∧
        (cli_show items metric a b true true).2.2 =
          some (sumVals (filter_samples items metric a b))) := by
  refine ⟨?_, ?_, ?_, ?_⟩
  · intro rows avgFlag h
    subst h
    unfold showAverage
    simp
  · intro rows h
    unfold showAverage
    rw [if_pos (by simp [h])]
  · intro items metric a b h
    unfold cli_show
    rw [h]
    simp
  · intro items metric a b h
    have hfalse : (filter_samples items metric a b).isEmpty = false := by simp [h]
    constructor <;> simp [cli_show, hfalse]

/-- C6 witness: an empty store gives no average; a one-row result gives its
value as the mean. -/
theorem C6_aggregate_witness :
    showAverage ([] : List SRow) true = none ∧
    showAverage [⟨"t", "h", "i", "m", 3⟩] true = some 3 := by
  refine ⟨C6_aggregate.1 [] true rfl, ?_⟩
  have h := C6_aggregate.2.1 [⟨"t", "h", "i", "m", 3⟩] (by simp)
  rw [h]
  norm_num

/-- C7 counterexample: with `--limit 0` the SQLite variant's Python
truthiness check `if args.limit:` skips the `LIMIT` clause, so a given limit
of `0` does not cap the result (one row comes back); and the CSV variant's
show returns matches in file order, which is not ordered by timestamp
descending. -/
theorem C7_query_counterexample :
    cmd_show [⟨"2025-09-27T15:00:00Z", "h", "i", "cpu-usage", 1⟩] none none none
        (some 0) false 0 =
      some ([⟨"2025-09-27T15:00:00Z", "h", "i", "cpu-usage", 1⟩], none) ∧
    (cli_show [⟨0, "cpu-usage", 1⟩, ⟨100, "cpu-usage", 2⟩] none none none
        false false).1 = [⟨0, "cpu-usage", 1⟩, ⟨100, "cpu-usage", 2⟩] ∧
    ¬ List.Sorted (fun x y : CSample => y.timestamp ≤ x.timestamp)
      (cli_show [⟨0, "cpu-usage", 1⟩, ⟨100, "cpu-usage", 2⟩] none none none
        false false).1 := by
  refine ⟨by decide, by decide, by decide⟩

/-- C7 (amended): in the SQLite variant the query result is always ordered by
timestamp descending; with no limit it is a permutation of exactly the
matching rows; a nonnegative limit `n` caps the result to the first `n` rows
of that order (so at most `n` rows); a negative limit imposes no cap (SQLite
semantics); all filter fields are optional and omitting all of them returns
every stored row; and at the command level a limit of `0` is truthiness-falsy
and behaves exactly like no limit. -/
theorem C7_query :
    (∀ (store : List SRow) (metric startB endB : Option String) (limit : Option Int),
      (queryRows store metric startB endB limit).Sorted tsDescRel) ∧
    (∀ (store : List SRow) (metric startB endB : Option String),
      (queryRows store metric startB endB none).Perm
        (store.filter (sqlMatches metric startB endB))) ∧
    (∀ (store : List SRow) (metric startB endB : Option String) (n : Int), 0 ≤ n →
      queryRows store metric startB endB (some n) =
        (queryRows store metric startB endB none).take n.toNat ∧
      (queryRows store metric startB endB (some n)).length ≤ n.toNat) ∧
    (∀ (store : List SRow) (metric startB endB : Option String) (n : Int), n < 0 →
      queryRows store metric startB endB (some n) =
        queryRows store metric startB endB none) ∧
    (∀ store : List SRow, (queryRows store none none none none).Perm store) ∧
    (∀ (store : List SRow) (metric startA endA : Option String) (avg : Bool) (now : Int),
      cmd_show store metric startA endA (some 0) avg now =
        cmd_show store metric startA endA none avg now) := by
  have applyLimit_some : ∀ (n : Int) (rows : List SRow),
      applyLimit (some n) rows = if n < 0 then rows else rows.take n.toNat :=
    fun n rows => rfl
  have applyLimit_none : ∀ rows : List SRow, applyLimit none rows = rows :=
    fun rows => rfl
  refine ⟨queryRows_sorted, queryRows_none_perm, ?_, ?_, ?_, ?_⟩
  · intro store metric startB endB n h
    constructor
    · unfold queryRows
      rw [applyLimit_some, if_neg (by omega), applyLimit_none]
    · unfold queryRows
      rw [applyLimit_some, if_neg (by omega), List.length_take]
      omega
  · intro store metric startB endB n h
    unfold queryRows
    rw [applyLimit_some, if_pos h, applyLimit_none]
  · intro store
    have hfil : store.filter (sqlMatches none none none) = store :=
      List.filter_eq_self.mpr (fun r _ => rfl)
    have hperm := queryRows_none_perm store none none none
    rw [hfil] at hperm
    exact hperm
  · intro store metric startA endA avg now
    rfl

/-- C7 witness: a positive limit of 1 on a two-row store returns the single
latest row. -/
theorem C7_query_witness :
    queryRows [⟨"2025-09-27T15:00:00Z", "h", "i", "cpu-usage", 1⟩,
               ⟨"2025-09-27T16:00:00Z", "h", "i", "cpu-usage", 2⟩]
        none none none (some 1) =
      [⟨"2025-09-27T16:00:00Z", "h", "i", "cpu-usage", 2⟩] := by
  have h := (C7_query.2.2.1 [⟨"2025-09-27T15:00:00Z", "h", "i", "cpu-usage", 1⟩,
    ⟨"2025-09-27T16:00:00Z", "h", "i", "cpu-usage", 2⟩] none none none 1 (by norm_num)).1
  rw [h]
  decide

/-- C8: every timestamp the SQLite variant persists is rendered by
`isoformat_utc` in the 20-character second-precision ISO-8601 form with an
explicit `Z` suffix, whose lexicographic (byte) order agrees exactly with
chronological order across the whole representable range; and a measurement
batch computes that timestamp once, so every row inserted by the batch
carries the same `isoformat_utc now`. -/
theorem C8_timestamps :
    (∀ t1 t2 : Nat, t1 ≤ maxSecond → t2 ≤ maxSecond →
      (strLe (isoformat_utc (t1 : Int)) (isoformat_utc (t2 : Int)) = true ↔ t1 ≤ t2)) ∧
    (∀ t : Int, (isoformat_utc t).data.getLast? = some 'Z' ∧
      (isoformat_utc t).length = 20) ∧
    (∀ (store : List SRow) (host ip : String) (now : Int) (metrics : List String)
        (readings : String → ℚ),
      (cmd_measure store host ip now metrics readings).1 =
        store ++ (metrics.filter (fun m => decide (m ∈ KNOWN_METRICS))).map
          (fun m => ⟨isoformat_utc now, host, ip, m, readings m⟩)) := by
  refine ⟨fun t1 t2 h1 h2 => iso_sortable h1 h2, fun t => ⟨?_, ?_⟩, ?_⟩
  · rw [isoformat_utc_data]
    exact isoChars_last _
  · show (isoformat_utc t).data.length = 20
    rw [isoformat_utc_data]
    exact isoChars_length _
  · intro store host ip now metrics readings
    rw [cmd_measure_spec host ip now readings metrics store]

/-- C8 witness: two renderable instants one day apart compare consistently in
both orders. -/
theorem C8_timestamps_witness :
    (strLe (isoformat_utc ((0 : Nat) : Int)) (isoformat_utc ((86400 : Nat) : Int)) =
      true ↔ (0 : Nat) ≤ 86400) ∧
    (strLe (isoformat_utc ((86400 : Nat) : Int)) (isoformat_utc ((0 : Nat) : Int)) =
      true ↔ (86400 : Nat) ≤ 0) :=
  ⟨C8_timestamps.1 0 86400 (by decide) (by decide),
   C8_timestamps.1 86400 0 (by decide) (by decide)⟩

/-- C9: in the CSV variant's bulk read, a row that cannot be parsed is
skipped individually — removing or inserting a corrupt row does not change
how the remaining rows are read, the read is a total function that never
aborts (it equals a filterMap over the rows), and every well-formed row is
still returned. -/
theorem C9_corrupt_rows :
    (∀ (pre post : List (List String)) (bad : List String), parseCsvRow bad = none →
      read_samples (pre ++ bad :: post) = read_samples (pre ++ post)) ∧
    (∀ (rows : List (List String)) (row : List String) (s : CSample),
      row ∈ rows → parseCsvRow row = some s → s ∈ read_samples rows) ∧
    (∀ rows : List (List String), read_samples rows = rows.filterMap parseCsvRow) := by
  refine ⟨?_, ?_, read_samples_eq_filterMap⟩
  · intro pre post bad h
    rw [read_samples_append, read_samples_append]
    simp [read_samples, h]
  · intro rows row s hmem hsome
    rw [read_samples_eq_filterMap]
    exact List.mem_filterMap.mpr ⟨row, hmem, hsome⟩

/-- C9 witness: dropping a corrupt middle row leaves the read of the
surrounding rows unchanged, and a well-formed row is returned. -/
theorem C9_corrupt_rows_witness :
    read_samples [["2025-09-27T15:00:00", "cpu-usage", "12"],
        ["garbage", "m", "x"], ["2025-09-27T16:00:00", "memory-usage", "40"]] =
      read_samples [["2025-09-27T15:00:00", "cpu-usage", "12"],
        ["2025-09-27T16:00:00", "memory-usage", "40"]] ∧
    (⟨toEpoch ⟨2025, 9, 27, 15, 0, 0⟩, "cpu-usage", 12⟩ : CSample) ∈
      read_samples [["2025-09-27T15:00:00", "cpu-usage", "12"], ["garbage", "m", "x"]] := by
  constructor
  · exact C9_corrupt_rows.1 [["2025-09-27T15:00:00", "cpu-usage", "12"]]
      [["2025-09-27T16:00:00", "memory-usage", "40"]] ["garbage", "m", "x"] (by decide)
  · exact C9_corrupt_rows.2.1 _ ["2025-09-27T15:00:00", "cpu-usage", "12"] _
      (by decide) (by decide)

/-- C10: an absolute ISO-8601 input carrying an explicit timezone offset is
reinterpreted by the SQLite variant's time parser with its wall-clock fields
taken as UTC — the offset is discarded, not applied: any parse producing
fields `c` with an explicit offset resolves to the instant of `c` read as
UTC, and in particular `2025-09-27T18:00:00+02:00` resolves to
2025-09-27T18:00:00Z, not 2025-09-27T16:00:00Z. -/
theorem C10_offset_discarded :
    (∀ (now : Int) (cs : List Char) (c : Civil) (off : Int),
      ¬ cs.head? = some '-' → pyFromIso cs = some (c, some off) →
        parse_relative_time now (String.mk cs) = some (toEpoch c)) ∧
    parse_relative_time 0 "2025-09-27T18:00:00+02:00" =
      some (toEpoch ⟨2025, 9, 27, 18, 0, 0⟩) ∧
    ¬ parse_relative_time 0 "2025-09-27T18:00:00+02:00" =
      some (toEpoch ⟨2025, 9, 27, 16, 0, 0⟩) := by
  refine ⟨?_, by decide, by decide⟩
  intro now cs c off hhead hparse
  unfold parse_relative_time
  rw [show (String.mk cs).data = cs from rfl]
  rw [parseRel_iso now cs hhead, hparse]
  rfl

/-- C10 witness: the general offset-discarding theorem applied to the
concrete `+02:00` input. -/
theorem C10_offset_discarded_witness :
    parse_relative_time 5 (String.mk "2025-09-27T18:00:00+02:00".data) =
      some (toEpoch ⟨2025, 9, 27, 18, 0, 0⟩) :=
  C10_offset_discarded.1 5 _ ⟨2025, 9, 27, 18, 0, 0⟩ 7200 (by decide) (by decide)

end Monitor
